import Mathlib

/-!
Verification of the XML invoice extraction-and-load pipeline of `app.py`
(streamlit-duckdb).  The pipeline parses fiscal-invoice XML documents,
flattens them into one row per line item (`process_xml_files`), batches the
rows into a DuckDB table `itens_completos`, and guards reprocessing with a
per-fingerprint idempotency gate.

The embedding below models:
- XML element trees and the ElementTree/lxml `find` / `findall` / `findtext`
  path semantics actually used by the source (child steps, `.//` descendant
  steps, first match in document order; `findtext` returns the empty string
  for an element whose text is `None` and the default when no element
  matches);
- Python's `float(...)` coercion restricted to plain decimal literals
  (optional sign, digits, optional single decimal point, optional
  surrounding whitespace), which covers every numeric form exercised by the
  fields of this dialect; results live in `ℚ`;
- the record assembly of `process_xml_files` including the per-envelope
  skip rules, the ICMS ordered fallback, defaults, and the fact that the
  Python local `vNF` is reassigned by `safe_float` on every processed item;
- the 1000-row batch loader, the remainder flush, the idempotency gate on
  the existing row count, and the post-load index creation with its
  swallowed failures.
-/

/-- Qualified XML tag name: `ns = true` marks the fiscal namespace
`http://www.portalfiscal.inf.br/nfcom` (the only namespace `app.py` uses,
bound to prefix `ns`); `ns = false` is an unqualified tag (used by the
paths `Fatura`, `NFComVivo` and `.//sirius/codigo_filial`). -/
structure QName where
  ns : Bool
  name : String
deriving DecidableEq

/-- Tag qualified by the fiscal namespace, as in the `ns:` path steps. -/
def nsT (s : String) : QName := ⟨true, s⟩

/-- Unqualified tag, as in the namespace-free path steps. -/
def pT (s : String) : QName := ⟨false, s⟩

/-- An XML element: tag, attributes, text (Python `Element.text`, `None`
when the element has no text node), and child elements in document
order. -/
inductive Xml where
  | elem (tag : QName) (attrs : List (String × String)) (text : Option String) (children : List Xml)

def Xml.tag : Xml → QName
  | .elem t _ _ _ => t

def Xml.attrs : Xml → List (String × String)
  | .elem _ a _ _ => a

def Xml.text : Xml → Option String
  | .elem _ _ t _ => t

def Xml.children : Xml → List Xml
  | .elem _ _ _ cs => cs

/-- Python `element.get(key)`: first attribute with the given key. -/
def Xml.getAttr (x : Xml) (k : String) : Option String :=
  (x.attrs.find? (fun p => p.1 == k)).map (fun p => p.2)

mutual
def Xml.descendants : Xml → List Xml
  | .elem _ _ _ cs => descendantsList cs
def descendantsList : List Xml → List Xml
  | [] => []
  | c :: cs => (c :: Xml.descendants c) ++ descendantsList cs
end

/-- Children with the given tag, in document order (path step `tag`). -/
def childrenNamed (x : Xml) (t : QName) : List Xml :=
  x.children.filter (fun c => c.tag == t)

/-- Proper descendants with the given tag, in document order
(path step `.//tag`). -/
def descendantsNamed (x : Xml) (t : QName) : List Xml :=
  x.descendants.filter (fun c => c.tag == t)

/-- `find("tag")`: first child with the tag, if any. -/
def findChild (x : Xml) (t : QName) : Option Xml :=
  (childrenNamed x t).head?

/-- `find(".//tag")`: first proper descendant with the tag, if any. -/
def findDescendant (x : Xml) (t : QName) : Option Xml :=
  (descendantsNamed x t).head?

/-- `find("t1/t2")`: first match of a two-step child path. -/
def findChildPath (x : Xml) (t1 t2 : QName) : Option Xml :=
  ((childrenNamed x t1).flatMap (fun e => childrenNamed e t2)).head?

/-- `find(".//t1/t2")`: first match of a descendant-then-child path. -/
def findDescChildPath (x : Xml) (t1 t2 : QName) : Option Xml :=
  ((descendantsNamed x t1).flatMap (fun e => childrenNamed e t2)).head?

/-- ElementTree `findtext` semantics for a matched element: its text, or
the empty string when the element exists but carries no text. -/
def textOrEmpty (x : Xml) : String :=
  x.text.getD ""

/-- `findtext("tag")` with no default: `none` when no child matches. -/
def findtextChild (x : Xml) (t : QName) : Option String :=
  (findChild x t).map textOrEmpty

/-- `findtext("tag", default=d)`. -/
def findtextChildD (x : Xml) (t : QName) (d : String) : String :=
  (findtextChild x t).getD d

/-- Value of a Nat built from decimal digit characters, as in Python
string-to-number conversion. -/
def digitsToNat (cs : List Char) : Nat :=
  cs.foldl (fun n c => n * 10 + (c.toNat - 48)) 0

/-- Surrounding-whitespace stripping performed by Python `int()` and
`float()` on string arguments. -/
def pyStrip (cs : List Char) : List Char :=
  ((cs.dropWhile Char.isWhitespace).reverse.dropWhile Char.isWhitespace).reverse

/-- Split a character list at every decimal point. -/
def splitOnDot : List Char → List (List Char)
  | [] => [[]]
  | c :: rest =>
    let r := splitOnDot rest
    if c = '.' then [] :: r
    else
      match r with
      | h :: t => (c :: h) :: t
      | [] => [[c]]

/-- Unsigned decimal literal `intPart.fracPart`; at least one digit overall
and nothing but digits, as accepted by Python `float()`. -/
def parseDecFrac (intPart fracPart : List Char) : Option ℚ :=
  if intPart = [] ∧ fracPart = [] then none
  else if intPart.all Char.isDigit ∧ fracPart.all Char.isDigit then
    some ((digitsToNat intPart : ℚ) + (digitsToNat fracPart : ℚ) / (10 : ℚ) ^ fracPart.length)
  else none

/-- Python `float(str)` on the plain decimal forms used by this dialect:
optional surrounding whitespace, optional sign, digits with at most one
decimal point.  `none` models `ValueError`.  (Exponent, infinity and NaN
spellings never occur in these numeric fields and are not modelled.) -/
def parseDecimal (str : String) : Option ℚ :=
  let cs := pyStrip str.toList
  let sb : Bool × List Char :=
    match cs with
    | c :: rest => if c = '-' then (true, rest) else if c = '+' then (false, rest) else (false, cs)
    | [] => (false, [])
  let q : Option ℚ :=
    match splitOnDot sb.2 with
    | [ip] => parseDecFrac ip []
    | [ip, fp] => parseDecFrac ip fp
    | _ => none
  q.map (fun v => if sb.1 then -v else v)

/-- Python `int(str)` (`app.py` line 141): optional surrounding
whitespace, optional sign, decimal digits; `none` models the caught
`ValueError` / `TypeError` (the latter for a `None` argument). -/
def parsePyInt (s : Option String) : Option Int :=
  match s with
  | none => none
  | some str =>
    match pyStrip str.toList with
    | [] => none
    | c :: rest =>
      if c = '-' then
        if rest ≠ [] ∧ rest.all Char.isDigit then some (-(digitsToNat rest : Int)) else none
      else if c = '+' then
        if rest ≠ [] ∧ rest.all Char.isDigit then some ((digitsToNat rest : Int)) else none
      else if (c :: rest).all Char.isDigit then some ((digitsToNat (c :: rest) : Int)) else none

/-- `safe_float` (`app.py` lines 26-31) applied to an optional string:
`float(value) if value else None` inside `try/except`.  A `None` argument
and the empty string are falsy and yield `None`; otherwise a failed parse
yields `None` via the `except` arm. -/
def safe_float (value : Option String) : Option ℚ :=
  match value with
  | none => none
  | some s => if s = "" then none else parseDecimal s

/-- Runtime value of the Python local `vNF`: first a string read from the
totals block, then (after the first processed line item executes
`vNF = safe_float(vNF)` at line 201) a float. -/
inductive PyVal where
  | s (v : String)
  | f (v : ℚ)

/-- `safe_float` applied to the current `vNF` value: on a string it parses
as above; on a float `q`, `float(q) if q else None` returns `q` unless `q`
is the falsy `0.0`, which yields `None`. -/
def pySafeFloat : Option PyVal → Option ℚ
  | none => none
  | some (.s str) => if str = "" then none else parseDecimal str
  | some (.f q) => if q = 0 then none else some q

/-- One row of the DuckDB table `itens_completos`, exactly the tuple built
at `app.py` lines 208-231.  Fields the code always binds to a string are
plain `String` (the corresponding columns are never written `NULL`); the
rest mirror the nullable Python values. -/
structure Record where
  filename : String
  codigo_filial : Option String
  nNF : Int
  dhEmi : Option String
  nItem : Option String
  CFOP : String
  cClass : Option String
  vProd : Option ℚ
  vBC : Option ℚ
  vDesc : Option ℚ
  vOutro : Option ℚ
  vNF : Option ℚ
  pis_cst : Option String
  cofins_cst : Option String
  pis_vbc : Option ℚ
  cofins_vbc : Option ℚ
  vicms : Option ℚ
  ICMS_CODE : String
  indicador_devolucao : String
  ind_sem_cst : String

/-- The fixed ICMS variant priority list (`app.py` line 19). -/
def icms_tags : List String := ["ICMS00", "ICMS20"]

/-- One ICMS probe: `tag_imposto.find(f".//ns:{tag}/ns:vICMS")`
(`app.py` lines 189-190). -/
def findVICMS (tag_imposto : Xml) (tag : String) : Option Xml :=
  findDescChildPath tag_imposto (nsT tag) (nsT "vICMS")

/-- The `for tag in icms_tags` fallback loop with `break` on first match
(`app.py` lines 186-194): result is `(vicms text, ICMS_CODE)`, starting
from the defaults `("0", "-")`.  `tag.split("ICMS")[1]` is the suffix
after the four characters `ICMS`. -/
def icmsLoop : List String → Xml → Option String × String
  | [], _ => (some "0", "-")
  | tag :: rest, tag_imposto =>
    match findVICMS tag_imposto tag with
    | some e => (e.text, tag.drop 4)
    | none => icmsLoop rest tag_imposto

/-- ICMS value text and code for one line item's tax block. -/
def resolveICMS (tag_imposto : Xml) : Option String × String :=
  icmsLoop icms_tags tag_imposto

/-- Branch code: `tree.findtext(".//sirius/codigo_filial")`
(`app.py` line 135), the first match in document order. -/
def codigoFilial (root : Xml) : Option String :=
  (findDescChildPath root (pT "sirius") (pT "codigo_filial")).map textOrEmpty

/-- Modelled from the spec wording "last/only match used": the text of the
last match of the branch-code path, for comparison with `codigoFilial`
(the source uses `findtext`, which takes the first match). -/
def codigoFilialLast (root : Xml) : Option String :=
  (((descendantsNamed root (pT "sirius")).flatMap
      (fun e => childrenNamed e (pT "codigo_filial"))).getLast?).map textOrEmpty

/-- Processing of one `<det>` line item (`app.py` lines 154-231), given the
invoice-level values; `vNF` is the current value of the Python local of
that name.  `none` is the silent `continue` when the `prod` or `imposto`
sub-block is missing. -/
def extractDet (file_name : String) (codigo_filial : Option String) (nNF : Int)
    (dhEmi : Option String) (vNF : Option PyVal) (det : Xml) : Option Record :=
  let nItem := det.getAttr "nItem"
  match findChild det (nsT "prod") with
  | none => none
  | some prod =>
    let cfop := findtextChildD prod (nsT "CFOP") "0000"
    let cClass_text := findtextChild prod (nsT "cClass")
    let cClass : Option String :=
      match cClass_text with
      | some s => if s = "" then none else some (s.take 3)
      | none => none
    let vProd := findtextChild prod (nsT "vProd")
    let vBC := findtextChild prod (nsT "vBC")
    let vDesc := findtextChild prod (nsT "vDesc")
    let vOutro := findtextChild prod (nsT "vOutro")
    match findChild det (nsT "imposto") with
    | none => none
    | some tag_imposto =>
      let indicador_devolucao := findtextChildD tag_imposto (nsT "indDevolucao") "0"
      let ind_sem_cst := findtextChildD tag_imposto (nsT "indSemCST") "-"
      let pis_cst := findChildPath tag_imposto (nsT "PIS") (nsT "CST")
      let cofins_cst := findChildPath tag_imposto (nsT "COFINS") (nsT "CST")
      let pis_vbc := findChildPath tag_imposto (nsT "PIS") (nsT "vBC")
      let cofins_vbc := findChildPath tag_imposto (nsT "COFINS") (nsT "vBC")
      let vc := resolveICMS tag_imposto
      some
        { filename := file_name
          codigo_filial := codigo_filial
          nNF := nNF
          dhEmi := dhEmi
          nItem := nItem
          CFOP := cfop
          cClass := cClass
          vProd := safe_float vProd
          vBC := safe_float vBC
          vDesc := safe_float vDesc
          vOutro := safe_float vOutro
          vNF := pySafeFloat vNF
          pis_cst := pis_cst.bind Xml.text
          cofins_cst := cofins_cst.bind Xml.text
          pis_vbc := safe_float (pis_vbc.bind Xml.text)
          cofins_vbc := safe_float (cofins_vbc.bind Xml.text)
          vicms := safe_float vc.1
          ICMS_CODE := vc.2
          indicador_devolucao := indicador_devolucao
          ind_sem_cst := ind_sem_cst }

/-- One iteration of the `<det>` loop: the state is the current `vNF`
local and the records emitted so far.  A processed item reassigns `vNF` to
its coerced float (line 201); a skipped item leaves the state unchanged. -/
def detStep (file_name : String) (codigo_filial : Option String) (nNF : Int)
    (dhEmi : Option String) (st : Option PyVal × List Record) (det : Xml) :
    Option PyVal × List Record :=
  match extractDet file_name codigo_filial nNF dhEmi st.1 det with
  | some r => (r.vNF.map PyVal.f, st.2 ++ [r])
  | none => st

/-- Processing of one invoice envelope `<Fatura>` (`app.py` lines
126-231).  `Except.error` models the uncaught `AttributeError` raised at
line 129 when the `NFComVivo` child is absent (`fatura.find` returned
`None`); `Except.ok []` is the silent `continue` for the other missing
header data. -/
def extractFatura (root : Xml) (file_name : String) (fatura : Xml) :
    Except Unit (List Record) :=
  match findChild fatura (pT "NFComVivo") with
  | none => Except.error ()
  | some nf_com_vivo =>
    match findDescendant nf_com_vivo (nsT "ide") with
    | none => Except.ok []
    | some ide =>
      let nNF_elem := findChild ide (nsT "nNF")
      let dhEmi_elem := findChild ide (nsT "dhEmi")
      let codigo_filial := codigoFilial root
      match nNF_elem, dhEmi_elem with
      | some ne, some de =>
        match parsePyInt ne.text with
        | none => Except.ok []
        | some nNF =>
          let dhEmi := de.text
          let total_info := findDescendant fatura (nsT "total")
          let vNF : Option String := total_info.bind (fun t => findtextChild t (nsT "vNF"))
          let dets := descendantsNamed fatura (nsT "det")
          Except.ok
            (dets.foldl (detStep file_name codigo_filial nNF dhEmi) (vNF.map PyVal.s, [])).2
      | _, _ => Except.ok []

/-- The `for fatura in tree.findall("Fatura")` loop, restricted to the
records it emits (batching handled separately): concatenation of the
per-envelope record lists, aborting at the first raised error. -/
def extractFaturaList (root : Xml) (file_name : String) :
    List Xml → Except Unit (List Record)
  | [] => Except.ok []
  | f :: fs =>
    match extractFatura root file_name f with
    | Except.error e => Except.error e
    | Except.ok recs =>
      match extractFaturaList root file_name fs with
      | Except.error e => Except.error e
      | Except.ok rest => Except.ok (recs ++ rest)

/-- All records one parsed file contributes, in emission order. -/
def extractTreeRecords (root : Xml) (file_name : String) : Except Unit (List Record) :=
  extractFaturaList root file_name (childrenNamed root (pT "Fatura"))

/-- Loader state: `db` is the table contents, `dados` the Python list
`dados_completos` (whose final length is the returned count), `batch` the
pending `batch_data` list. -/
structure BatchState where
  db : List Record
  dados : List Record
  batch : List Record

/-- `batch_data.append(...)` followed by the flush-on-full check
(`app.py` lines 208-249): a batch reaching 1000 records is inserted with
`executemany`, extended onto `dados_completos`, and reset. -/
def pushRecord (st : BatchState) (r : Record) : BatchState :=
  let batch := st.batch ++ [r]
  if 1000 ≤ batch.length then
    { db := st.db ++ batch, dados := st.dados ++ batch, batch := [] }
  else
    { st with batch := batch }

/-- Feeding a list of emitted records through the batch accumulator. -/
def loadRecords (st : BatchState) (recs : List Record) : BatchState :=
  recs.foldl pushRecord st

/-- The final `if batch_data:` remainder flush (`app.py` lines 252-266);
result is the table contents and `dados_completos`. -/
def finalFlush (st : BatchState) : List Record × List Record :=
  if st.batch.isEmpty then (st.db, st.dados)
  else (st.db ++ st.batch, st.dados ++ st.batch)

/-- One iteration of the envelope loop at the loader level: a raised
extraction error escapes with the rows already durably inserted (the
pending `batch_data` is lost, never flushed). -/
def faturaStep (root : Xml) (file_name : String)
    (acc : Except (List Record) BatchState) (fatura : Xml) :
    Except (List Record) BatchState :=
  match acc with
  | Except.error e => Except.error e
  | Except.ok st =>
    match extractFatura root file_name fatura with
    | Except.error _ => Except.error st.db
    | Except.ok recs => Except.ok (loadRecords st recs)

/-- Processing of one uploaded file (`app.py` lines 107-270): fresh
`batch_data`, the envelope loop, then the remainder flush.  On success the
result is the new table contents and the grown `dados_completos`; on error
the payload is the table contents at the moment the exception escaped. -/
def processFile (db dados : List Record) (file_name : String) (root : Xml) :
    Except (List Record) (List Record × List Record) :=
  let faturas := childrenNamed root (pT "Fatura")
  match faturas.foldl (faturaStep root file_name) (Except.ok ⟨db, dados, []⟩) with
  | Except.error e => Except.error e
  | Except.ok st => Except.ok (finalFlush st)

/-- The `for file_idx, uploaded_file in enumerate(uploaded_files)` loop:
files are processed strictly sequentially; an escaping exception aborts
the whole run. -/
def processFilesLoop (db dados : List Record) :
    List (String × Xml) → Except (List Record) (List Record × List Record)
  | [] => Except.ok (db, dados)
  | (file_name, root) :: rest =>
    match processFile db dados file_name root with
    | Except.error e => Except.error e
    | Except.ok (db2, dados2) => processFilesLoop db2 dados2 rest

/-- Names of the secondary indexes created after a load
(`app.py` lines 281-286). -/
def indexNames : List String := ["idx_nNF", "idx_dhEmi", "idx_CFOP", "idx_filename"]

/-- `CREATE INDEX IF NOT EXISTS`: a no-op when the index already exists. -/
def createIndexStep (idxs : List String) (n : String) : List String :=
  if n ∈ idxs then idxs else idxs ++ [n]

/-- The four index-creation statements in order. -/
def createIndexes (idxs : List String) : List String :=
  indexNames.foldl createIndexStep idxs

/-- The `try:` block around index creation, which external storage errors
may abort after any number of statements; the `except: pass` swallows the
failure.  `failAfter = some k` models a failure after `k` successful
statements; `none` is the failure-free run. -/
def attemptIndexes (idxs : List String) (failAfter : Option Nat) : List String :=
  match failAfter with
  | none => createIndexes idxs
  | some k => (indexNames.take k).foldl createIndexStep idxs

/-- The persistent DuckDB store for one fingerprint: the table
`itens_completos` (absent until first created) and its indexes. -/
structure Store where
  table : Option (List Record)
  indexes : List String

/-- The body of `process_xml_files` past the idempotency gate
(`app.py` lines 68-290): `CREATE TABLE IF NOT EXISTS` has already ensured
a table with contents `t`; the file loop runs, then index creation, then
`return con, len(dados_completos)`.  A raised extraction error escapes
before index creation with the partially loaded table persisted. -/
def runLoad (files : List (String × Xml)) (t : List Record) (idxs : List String)
    (failAfter : Option Nat) : Store × Except Unit Nat :=
  match processFilesLoop t [] files with
  | Except.error db2 => (⟨some db2, idxs⟩, Except.error ())
  | Except.ok (db2, dados) => (⟨some db2, attemptIndexes idxs failAfter⟩, Except.ok dados.length)

/-- `process_xml_files` (`app.py` lines 49-290).  The gate at lines 54-66
queries the existing row count: a missing table raises and falls through
(`except: pass`), a positive count short-circuits the whole run and
returns the pre-existing count, a zero count falls through to a fresh
load over the existing empty table. -/
def processXmlFiles (uploaded_files : List (String × Xml)) (store : Store)
    (failAfter : Option Nat) : Store × Except Unit Nat :=
  match store.table with
  | some t =>
    if 0 < t.length then (store, Except.ok t.length)
    else runLoad uploaded_files t store.indexes failAfter
  | none => runLoad uploaded_files [] store.indexes failAfter

/-- `get_file_hash` (`app.py` lines 34-40): the session fingerprint is an
md5 digest over the concatenation of each file's name and decimal size;
the digest itself is modelled by the concatenated update stream it
hashes.  Equal name+size sequences therefore map to the same store. -/
def get_file_hash (uploaded_files : List (String × Nat)) : String :=
  uploaded_files.foldl (fun h f => h ++ f.1 ++ toString f.2) ""

/-- Minimal well-formed envelope: header with invoice number 7 and a
timestamp, no totals block, one line item with empty `prod` and `imposto`
blocks. -/
def fat0 : Xml :=
  .elem (pT "Fatura") [] none
    [ .elem (pT "NFComVivo") [] none
        [ .elem (nsT "ide") [] none
            [ .elem (nsT "nNF") [] (some "7") []
            , .elem (nsT "dhEmi") [] (some "2024-01-01T10:00:00") [] ] ]
    , .elem (nsT "det") [("nItem", "1")] none
        [ .elem (nsT "prod") [] none []
        , .elem (nsT "imposto") [] none [] ] ]

/-- A document whose root holds the single envelope `fat0`. -/
def root0 : Xml := .elem (pT "raiz") [] none [fat0]

/-- The one record extracted from `root0` under file name `a.xml`. -/
def rec0 : Record :=
  { filename := "a.xml", codigo_filial := none, nNF := 7,
    dhEmi := some "2024-01-01T10:00:00", nItem := some "1", CFOP := "0000",
    cClass := none, vProd := none, vBC := none, vDesc := none, vOutro := none,
    vNF := none, pis_cst := none, cofins_cst := none, pis_vbc := none,
    cofins_vbc := none, vicms := safe_float (some "0"), ICMS_CODE := "-",
    indicador_devolucao := "0", ind_sem_cst := "-" }

/-- An envelope with no `NFComVivo` child. -/
def faturaNoCore : Xml := .elem (pT "Fatura") [] none []

/-- A document holding only the core-less envelope. -/
def rootNoCore : Xml := .elem (pT "raiz") [] none [faturaNoCore]

/-- An envelope whose invoice-core element is present but empty, so the
identification block is absent. -/
def fatNoIde : Xml :=
  .elem (pT "Fatura") [] none [.elem (pT "NFComVivo") [] none []]

/-- Envelope like `fat0` with timestamp text `D`. -/
def fatC7 : Xml :=
  .elem (pT "Fatura") [] none
    [ .elem (pT "NFComVivo") [] none
        [ .elem (nsT "ide") [] none
            [ .elem (nsT "nNF") [] (some "7") []
            , .elem (nsT "dhEmi") [] (some "D") [] ] ]
    , .elem (nsT "det") [("nItem", "1")] none
        [ .elem (nsT "prod") [] none []
        , .elem (nsT "imposto") [] none [] ] ]

/-- A document with two matches of `.//sirius/codigo_filial`, texts `A`
then `B`, followed by one envelope. -/
def rootC7 : Xml :=
  .elem (pT "raiz") [] none
    [ .elem (pT "sirius") [] none [.elem (pT "codigo_filial") [] (some "A") []]
    , .elem (pT "sirius") [] none [.elem (pT "codigo_filial") [] (some "B") []]
    , fatC7 ]

/-- The record extracted from `rootC7` under file name `c.xml`. -/
def recC7 : Record :=
  { filename := "c.xml", codigo_filial := some "A", nNF := 7,
    dhEmi := some "D", nItem := some "1", CFOP := "0000",
    cClass := none, vProd := none, vBC := none, vDesc := none, vOutro := none,
    vNF := none, pis_cst := none, cofins_cst := none, pis_vbc := none,
    cofins_vbc := none, vicms := safe_float (some "0"), ICMS_CODE := "-",
    indicador_devolucao := "0", ind_sem_cst := "-" }

/-- Envelope whose totals block carries `vNF` text `0` and which holds two
valid line items. -/
def fatZ : Xml :=
  .elem (pT "Fatura") [] none
    [ .elem (pT "NFComVivo") [] none
        [ .elem (nsT "ide") [] none
            [ .elem (nsT "nNF") [] (some "7") []
            , .elem (nsT "dhEmi") [] (some "D") [] ] ]
    , .elem (nsT "total") [] none [.elem (nsT "vNF") [] (some "0") []]
    , .elem (nsT "det") [("nItem", "1")] none
        [ .elem (nsT "prod") [] none []
        , .elem (nsT "imposto") [] none [] ]
    , .elem (nsT "det") [("nItem", "2")] none
        [ .elem (nsT "prod") [] none []
        , .elem (nsT "imposto") [] none [] ] ]

/-- A document holding only the zero-total envelope. -/
def rootZ : Xml := .elem (pT "raiz") [] none [fatZ]

/-- First record of `fatZ`: invoice total coerced from the text `0`. -/
def rz1 : Record :=
  { filename := "z.xml", codigo_filial := none, nNF := 7,
    dhEmi := some "D", nItem := some "1", CFOP := "0000",
    cClass := none, vProd := none, vBC := none, vDesc := none, vOutro := none,
    vNF := safe_float (some "0"), pis_cst := none, cofins_cst := none,
    pis_vbc := none, cofins_vbc := none, vicms := safe_float (some "0"),
    ICMS_CODE := "-", indicador_devolucao := "0", ind_sem_cst := "-" }

/-- Second record of `fatZ`: invoice total re-coerced from the float the
first item left in the `vNF` local. -/
def rz2 : Record :=
  { filename := "z.xml", codigo_filial := none, nNF := 7,
    dhEmi := some "D", nItem := some "2", CFOP := "0000",
    cClass := none, vProd := none, vBC := none, vDesc := none, vOutro := none,
    vNF := pySafeFloat ((safe_float (some "0")).map PyVal.f),
    pis_cst := none, cofins_cst := none,
    pis_vbc := none, cofins_vbc := none, vicms := safe_float (some "0"),
    ICMS_CODE := "-", indicador_devolucao := "0", ind_sem_cst := "-" }

/-- Tax block holding both ICMS variants, the `ICMS20` value element first
in document order. -/
def impC4 : Xml :=
  .elem (nsT "imposto") [] none
    [ .elem (nsT "ICMS20") [] none [.elem (nsT "vICMS") [] (some "5") []]
    , .elem (nsT "ICMS00") [] none [.elem (nsT "vICMS") [] (some "7") []] ]

/-- The `vICMS` element of the `ICMS00` variant inside `impC4`. -/
def eC4 : Xml := .elem (nsT "vICMS") [] (some "7") []

/-- Tax block with no ICMS variant at all. -/
def impC4b : Xml := .elem (nsT "imposto") [] none []

/-- Empty `prod` block. -/
def prodC8 : Xml := .elem (nsT "prod") [] none []

/-- Line item with empty `prod` and `imposto` blocks and no attributes. -/
def detC8 : Xml :=
  .elem (nsT "det") [] none [prodC8, .elem (nsT "imposto") [] none []]

/-- The record extracted from `detC8`. -/
def recC8 : Record :=
  { filename := "w", codigo_filial := none, nNF := 1,
    dhEmi := none, nItem := none, CFOP := "0000",
    cClass := none, vProd := none, vBC := none, vDesc := none, vOutro := none,
    vNF := none, pis_cst := none, cofins_cst := none, pis_vbc := none,
    cofins_vbc := none, vicms := safe_float (some "0"), ICMS_CODE := "-",
    indicador_devolucao := "0", ind_sem_cst := "-" }

/-- Tax block whose `ICMS00` variant matches but whose `vICMS` element
carries no text. -/
def impC10 : Xml :=
  .elem (nsT "imposto") [] none
    [ .elem (nsT "ICMS00") [] none [.elem (nsT "vICMS") [] none []] ]

/-- Line item built around `impC10`. -/
def detC10 : Xml := .elem (nsT "det") [] none [prodC8, impC10]

/-- The record extracted from `detC10`: code set, value null. -/
def recC10 : Record :=
  { filename := "w", codigo_filial := none, nNF := 1,
    dhEmi := none, nItem := none, CFOP := "0000",
    cClass := none, vProd := none, vBC := none, vDesc := none, vOutro := none,
    vNF := none, pis_cst := none, cofins_cst := none, pis_vbc := none,
    cofins_vbc := none, vicms := none, ICMS_CODE := "00",
    indicador_devolucao := "0", ind_sem_cst := "-" }

lemma safe_float_zero : safe_float (some "0") = some 0 := by
  have h : safe_float (some "0")
      = some ((↑(0 : ℕ) : ℚ) + (↑(0 : ℕ) : ℚ) / (10 : ℚ) ^ (0 : ℕ)) := rfl
  rw [h]
  norm_num

lemma pushRecord_spec (st : BatchState) (r : Record) :
    (pushRecord st r).db ++ (pushRecord st r).batch = st.db ++ st.batch ++ [r] ∧
    (pushRecord st r).dados ++ (pushRecord st r).batch = st.dados ++ st.batch ++ [r] := by
  simp only [pushRecord]
  split
  · constructor <;> simp [List.append_assoc]
  · constructor <;> simp [List.append_assoc]

lemma loadRecords_spec (recs : List Record) : ∀ st : BatchState,
    (loadRecords st recs).db ++ (loadRecords st recs).batch = st.db ++ st.batch ++ recs ∧
    (loadRecords st recs).dados ++ (loadRecords st recs).batch = st.dados ++ st.batch ++ recs := by
  induction recs with
  | nil => intro st; simp [loadRecords]
  | cons r rs ih =>
    intro st
    have e : loadRecords st (r :: rs) = loadRecords (pushRecord st r) rs := rfl
    rw [e]
    obtain ⟨h1, h2⟩ := ih (pushRecord st r)
    obtain ⟨g1, g2⟩ := pushRecord_spec st r
    rw [h1, h2, g1, g2]
    simp [List.append_assoc]

lemma finalFlush_spec (st : BatchState) :
    finalFlush st = (st.db ++ st.batch, st.dados ++ st.batch) := by
  by_cases h : st.batch.isEmpty
  · have hb : st.batch = [] := by simpa using h
    simp [finalFlush, h, hb]
  · simp [finalFlush, h]

lemma faturaStep_error (root : Xml) (fn : String) (fs : List Xml) (e : List Record) :
    fs.foldl (faturaStep root fn) (Except.error e) = Except.error e := by
  induction fs with
  | nil => rfl
  | cons f fs ih => simpa [faturaStep] using ih

lemma faturaFold_ok (root : Xml) (fn : String) (faturas : List Xml) :
    ∀ (st : BatchState) (recs : List Record),
    extractFaturaList root fn faturas = Except.ok recs →
    faturas.foldl (faturaStep root fn) (Except.ok st) = Except.ok (loadRecords st recs) := by
  induction faturas with
  | nil =>
    intro st recs h
    obtain rfl : ([] : List Record) = recs := by
      simpa [extractFaturaList] using h
    rfl
  | cons f fs ih =>
    intro st recs h
    simp only [extractFaturaList] at h
    cases hf : extractFatura root fn f with
    | error e => rw [hf] at h; exact absurd h (by simp)
    | ok recs1 =>
      rw [hf] at h
      cases hr : extractFaturaList root fn fs with
      | error e => rw [hr] at h; exact absurd h (by simp)
      | ok rest =>
        rw [hr] at h
        obtain rfl : recs1 ++ rest = recs := by simpa using h
        rw [List.foldl_cons]
        have hstep : faturaStep root fn (Except.ok st) f = Except.ok (loadRecords st recs1) := by
          simp [faturaStep, hf]
        rw [hstep, ih (loadRecords st recs1) rest hr]
        simp [loadRecords, List.foldl_append]

lemma faturaFold_ok_inv (root : Xml) (fn : String) (faturas : List Xml) :
    ∀ (st st2 : BatchState),
    faturas.foldl (faturaStep root fn) (Except.ok st) = Except.ok st2 →
    ∃ recs, st2 = loadRecords st recs := by
  induction faturas with
  | nil =>
    intro st st2 h
    obtain rfl : st = st2 := by simpa using h
    exact ⟨[], rfl⟩
  | cons f fs ih =>
    intro st st2 h
    rw [List.foldl_cons] at h
    cases hf : extractFatura root fn f with
    | error e =>
      rw [show faturaStep root fn (Except.ok st) f = Except.error st.db from by
        simp [faturaStep, hf]] at h
      rw [faturaStep_error] at h
      exact absurd h (by simp)
    | ok recs1 =>
      rw [show faturaStep root fn (Except.ok st) f = Except.ok (loadRecords st recs1) from by
        simp [faturaStep, hf]] at h
      obtain ⟨recs2, h2⟩ := ih (loadRecords st recs1) st2 h
      refine ⟨recs1 ++ recs2, ?_⟩
      rw [h2]
      simp [loadRecords, List.foldl_append]

lemma processFile_grow (db dados : List Record) (fn : String) (root : Xml)
    (db2 dados2 : List Record)
    (h : processFile db dados fn root = Except.ok (db2, dados2)) :
    ∃ L, db2 = db ++ L ∧ dados2 = dados ++ L := by
  simp only [processFile] at h
  cases hfold : (childrenNamed root (pT "Fatura")).foldl (faturaStep root fn)
      (Except.ok ⟨db, dados, []⟩) with
  | error e => rw [hfold] at h; exact absurd h (by simp)
  | ok st2 =>
    rw [hfold] at h
    obtain ⟨recs, rfl⟩ := faturaFold_ok_inv root fn _ _ _ hfold
    obtain ⟨g1, g2⟩ := loadRecords_spec recs ⟨db, dados, []⟩
    have h2 : Except.ok (ε := List Record)
        (finalFlush (loadRecords ⟨db, dados, []⟩ recs)) = Except.ok (db2, dados2) := h
    have h3 : finalFlush (loadRecords ⟨db, dados, []⟩ recs) = (db2, dados2) := by
      injection h2
    rw [finalFlush_spec] at h3
    injection h3 with e1 e2
    refine ⟨recs, ?_, ?_⟩
    · rw [← e1, g1]; simp
    · rw [← e2, g2]; simp

lemma processFilesLoop_grow (files : List (String × Xml)) :
    ∀ db dados db2 dados2,
    processFilesLoop db dados files = Except.ok (db2, dados2) →
    ∃ L, db2 = db ++ L ∧ dados2 = dados ++ L := by
  induction files with
  | nil =>
    intro db dados db2 dados2 h
    obtain ⟨rfl, rfl⟩ : db = db2 ∧ dados = dados2 := by
      simpa [processFilesLoop] using h
    exact ⟨[], by simp⟩
  | cons fr rest ih =>
    intro db dados db2 dados2 h
    obtain ⟨fn, root⟩ := fr
    simp only [processFilesLoop] at h
    cases hp : processFile db dados fn root with
    | error e => rw [hp] at h; exact absurd h (by simp)
    | ok p =>
      obtain ⟨dbm, dadosm⟩ := p
      rw [hp] at h
      obtain ⟨L1, e1, e2⟩ := processFile_grow db dados fn root dbm dadosm hp
      obtain ⟨L2, f1, f2⟩ := ih dbm dadosm db2 dados2 h
      subst e1 e2 f1 f2
      exact ⟨L1 ++ L2, by simp [List.append_assoc]⟩

lemma mem_createIndexStep (idxs : List String) (n a : String) (h : a ∈ idxs) :
    a ∈ createIndexStep idxs n := by
  unfold createIndexStep
  split
  · exact h
  · exact List.mem_append_left _ h

lemma self_mem_createIndexStep (idxs : List String) (n : String) :
    n ∈ createIndexStep idxs n := by
  unfold createIndexStep
  split
  · assumption
  · exact List.mem_append_right _ (List.mem_singleton.mpr rfl)

lemma mem_foldl_createIndexStep (names : List String) :
    ∀ (idxs : List String) (a : String), a ∈ idxs →
    a ∈ names.foldl createIndexStep idxs := by
  induction names with
  | nil => intro idxs a h; exact h
  | cons m ms ih =>
    intro idxs a h
    exact ih (createIndexStep idxs m) a (mem_createIndexStep idxs m a h)

lemma names_mem_foldl_createIndexStep (names : List String) :
    ∀ (idxs : List String) (n : String), n ∈ names →
    n ∈ names.foldl createIndexStep idxs := by
  induction names with
  | nil => intro idxs n h; exact absurd h (List.not_mem_nil n)
  | cons m ms ih =>
    intro idxs n h
    rcases List.mem_cons.mp h with rfl | h2
    · exact mem_foldl_createIndexStep ms (createIndexStep idxs n) n
        (self_mem_createIndexStep idxs n)
    · exact ih (createIndexStep idxs m) n h2

lemma foldl_createIndexStep_noop (names : List String) :
    ∀ idxs : List String, (∀ n ∈ names, n ∈ idxs) →
    names.foldl createIndexStep idxs = idxs := by
  induction names with
  | nil => intro idxs _; rfl
  | cons m ms ih =>
    intro idxs h
    have hm : createIndexStep idxs m = idxs := by
      unfold createIndexStep
      rw [if_pos (h m (List.mem_cons_self m ms))]
    rw [List.foldl_cons, hm]
    exact ih idxs (fun n hn => h n (List.mem_cons_of_mem m hn))

lemma createIndexes_idem (idxs : List String) :
    createIndexes (createIndexes idxs) = createIndexes idxs :=
  foldl_createIndexStep_noop indexNames (createIndexes idxs)
    (fun n hn => names_mem_foldl_createIndexStep indexNames idxs n hn)

lemma extractDet_codigo (fn : String) (cf : Option String) (n : Int) (d : Option String)
    (v : Option PyVal) (det : Xml) (r : Record)
    (h : extractDet fn cf n d v det = some r) : r.codigo_filial = cf := by
  simp only [extractDet] at h
  split at h
  · exact Option.noConfusion h
  · split at h
    · exact Option.noConfusion h
    · injection h with h2
      rw [← h2]

lemma extractDet_imposto (fn : String) (cf : Option String) (n : Int) (d : Option String)
    (v : Option PyVal) (det : Xml) (r : Record)
    (h : extractDet fn cf n d v det = some r) :
    ∃ imp, findChild det (nsT "imposto") = some imp := by
  simp only [extractDet] at h
  split at h
  · exact Option.noConfusion h
  · split at h
    · exact Option.noConfusion h
    · next imp heq => exact ⟨imp, heq⟩

lemma extractDet_icms (fn : String) (cf : Option String) (n : Int) (d : Option String)
    (v : Option PyVal) (det imp : Xml) (r : Record)
    (himp : findChild det (nsT "imposto") = some imp)
    (h : extractDet fn cf n d v det = some r) :
    r.vicms = safe_float (resolveICMS imp).1 ∧ r.ICMS_CODE = (resolveICMS imp).2 := by
  simp only [extractDet, himp] at h
  split at h
  · exact Option.noConfusion h
  · injection h with h2
    rw [← h2]
    exact ⟨rfl, rfl⟩

lemma extractDet_cfop (fn : String) (cf : Option String) (n : Int) (d : Option String)
    (v : Option PyVal) (det prod : Xml) (r : Record)
    (hp : findChild det (nsT "prod") = some prod)
    (hc : findChild prod (nsT "CFOP") = none)
    (h : extractDet fn cf n d v det = some r) : r.CFOP = "0000" := by
  simp only [extractDet, hp] at h
  split at h
  · exact Option.noConfusion h
  · injection h with h2
    rw [← h2]
    simp [findtextChildD, findtextChild, hc]

lemma icms_code_cases (imp : Xml) :
    (resolveICMS imp).2 = "-" ∨ (resolveICMS imp).2 = "00" ∨ (resolveICMS imp).2 = "20" := by
  simp only [resolveICMS, icms_tags, icmsLoop]
  cases h0 : findVICMS imp "ICMS00" with
  | some e => right; left; rfl
  | none =>
    cases h2 : findVICMS imp "ICMS20" with
    | some e => right; right; rfl
    | none => left; rfl

lemma icmsLoop_dash_default (imp : Xml) (txt : Option String) (code : String)
    (h : resolveICMS imp = (txt, code)) (hdash : code = "-") : txt = some "0" := by
  simp only [resolveICMS, icms_tags, icmsLoop] at h
  cases h0 : findVICMS imp "ICMS00" with
  | some e =>
    rw [h0] at h
    injection h with ha hb
    rw [← hb] at hdash
    exact absurd hdash (by decide)
  | none =>
    rw [h0] at h
    cases h2 : findVICMS imp "ICMS20" with
    | some e =>
      rw [h2] at h
      injection h with ha hb
      rw [← hb] at hdash
      exact absurd hdash (by decide)
    | none =>
      rw [h2] at h
      injection h with ha hb
      rw [← ha]

lemma detFold_codigo (fn : String) (cf : Option String) (n : Int) (d : Option String)
    (dets : List Xml) :
    ∀ (st : Option PyVal × List Record) (r : Record),
    (∀ r2 ∈ st.2, r2.codigo_filial = cf) →
    r ∈ (dets.foldl (detStep fn cf n d) st).2 → r.codigo_filial = cf := by
  induction dets with
  | nil => intro st r hst hr; exact hst r hr
  | cons det ds ih =>
    intro st r hst hr
    rw [List.foldl_cons] at hr
    refine ih (detStep fn cf n d st det) r ?_ hr
    intro r2 hr2
    cases h3 : extractDet fn cf n d st.1 det with
    | none =>
      rw [show detStep fn cf n d st det = st from by simp [detStep, h3]] at hr2
      exact hst r2 hr2
    | some r3 =>
      rw [show detStep fn cf n d st det = (r3.vNF.map PyVal.f, st.2 ++ [r3]) from by
        simp [detStep, h3]] at hr2
      rcases List.mem_append.mp hr2 with h4 | h4
      · exact hst r2 h4
      · rw [List.mem_singleton.mp h4]
        exact extractDet_codigo fn cf n d st.1 det r3 h3

/-- C5: for every input, `safe_float` returns null on the empty string, on
null/absent input, and on any text that fails numeric parsing, and never
raises (it is a total function); valid numeric text maps to its value,
with no exception for zero-looking values: the text `0` coerces to `0.0`
and `12.5` to `12.5`. -/
theorem safe_float_contract :
    safe_float none = none
    ∧ safe_float (some "") = none
    ∧ safe_float (some "abc") = none
    ∧ safe_float (some "0") = some 0
    ∧ safe_float (some "12.5") = some ((25 : ℚ) / 2)
    ∧ ∀ s : String, parseDecimal s = none → safe_float (some s) = none := by
  refine ⟨rfl, rfl, rfl, safe_float_zero, ?_, ?_⟩
  · have h : safe_float (some "12.5")
        = some ((↑(12 : ℕ) : ℚ) + (↑(5 : ℕ) : ℚ) / (10 : ℚ) ^ (1 : ℕ)) := rfl
    rw [h]
    norm_num
  · intro s hs
    by_cases he : s = ""
    · simp [safe_float, he]
    · simp [safe_float, he, hs]

/-- Witness for C5: the final clause applied to the concrete unparsable
text `x7`. -/
theorem safe_float_contract_witness : safe_float (some "x7") = none :=
  safe_float_contract.2.2.2.2.2 "x7" rfl

/-- C4: whenever the tax block holds value elements for more than one ICMS
variant, the extracted code is the suffix of the variant first in the
priority list `icms_tags` (regardless of document order) and the value is
taken from that variant; when no variant matches, the value is the
coercion of the text `0` (that is, `0.0`) and the code is `-`. -/
theorem icms_priority (imp : Xml) :
    (∀ e, findVICMS imp "ICMS00" = some e → (findVICMS imp "ICMS20").isSome = true →
      resolveICMS imp = (e.text, "00"))
    ∧ (findVICMS imp "ICMS00" = none → findVICMS imp "ICMS20" = none →
      resolveICMS imp = (some "0", "-") ∧ safe_float (some "0") = some 0) := by
  constructor
  · intro e he _
    have h : resolveICMS imp = (e.text, "ICMS00".drop 4) := by
      simp [resolveICMS, icms_tags, icmsLoop, he]
    have hdrop : "ICMS00".drop 4 = "00" := rfl
    rw [h, hdrop]
  · intro h0 h2
    refine ⟨?_, safe_float_zero⟩
    simp [resolveICMS, icms_tags, icmsLoop, h0, h2]

/-- Witness for C4: `impC4` holds both variants with the `ICMS20` value
element first in document order, yet the priority list wins; `impC4b`
holds no variant and falls back to the defaults. -/
theorem icms_priority_witness :
    resolveICMS impC4 = (some "7", "00") ∧ resolveICMS impC4b = (some "0", "-") :=
  ⟨(icms_priority impC4).1 eC4 rfl rfl, ((icms_priority impC4b).2 rfl rfl).1⟩

/-- C10: when an ICMS variant in the priority list matches but the matched
value element carries empty or absent text, the stored `icms_value` is
null (not the `0` default) while `icms_code` is still that variant's
suffix; the textual `0` default arises only when no variant matches at
all. -/
theorem icms_empty_value_null :
    (∀ (fn : String) (cf : Option String) (n : Int) (d : Option String) (v : Option PyVal)
      (det imp : Xml) (r : Record) (txt : Option String) (code : String),
      findChild det (nsT "imposto") = some imp →
      resolveICMS imp = (txt, code) →
      code ≠ "-" →
      (txt = none ∨ txt = some "") →
      extractDet fn cf n d v det = some r →
      r.vicms = none ∧ r.ICMS_CODE = code)
    ∧ (∀ (imp : Xml) (txt : Option String) (code : String),
      resolveICMS imp = (txt, code) → code = "-" → txt = some "0") := by
  constructor
  · intro fn cf n d v det imp r txt code himp hres hcode htxt h
    obtain ⟨hv, hc⟩ := extractDet_icms fn cf n d v det imp r himp h
    rw [hres] at hv hc
    refine ⟨?_, hc⟩
    rcases htxt with rfl | rfl
    · rw [hv]
      rfl
    · rw [hv]
      rfl
  · intro imp txt code hres hdash
    exact icmsLoop_dash_default imp txt code hres hdash

/-- Witness for C10: `detC10` holds an `ICMS00` variant whose `vICMS`
element has no text; the record keeps the code and stores a null value. -/
theorem icms_empty_value_null_witness :
    recC10.vicms = none ∧ recC10.ICMS_CODE = "00" :=
  icms_empty_value_null.1 "w" none 1 none none detC10 impC10 recC10 none "00"
    rfl rfl (by decide) (Or.inl rfl) rfl

/-- C8: every record the extractor emits has a non-null `cfop_code` and a
non-null `icms_code` (both fields are total strings in the embedded
record): the ICMS code is always one of `-`, `00`, `20` (default `-` when
no variant matched) and the CFOP defaults to `0000` when the source field
is absent. -/
theorem record_nonnull_defaults (fn : String) (cf : Option String) (n : Int)
    (d : Option String) (v : Option PyVal) (det : Xml) (r : Record)
    (h : extractDet fn cf n d v det = some r) :
    (r.ICMS_CODE = "-" ∨ r.ICMS_CODE = "00" ∨ r.ICMS_CODE = "20")
    ∧ (∀ prod, findChild det (nsT "prod") = some prod →
      findChild prod (nsT "CFOP") = none → r.CFOP = "0000") := by
  constructor
  · obtain ⟨imp, himp⟩ := extractDet_imposto fn cf n d v det r h
    obtain ⟨_, hc⟩ := extractDet_icms fn cf n d v det imp r himp h
    rw [hc]
    exact icms_code_cases imp
  · intro prod hp hcf
    exact extractDet_cfop fn cf n d v det prod r hp hcf h

/-- Witness for C8 at the concrete line item `detC8`, whose `prod` block
has no CFOP child and whose tax block matches no ICMS variant. -/
theorem record_nonnull_defaults_witness :
    (recC8.ICMS_CODE = "-" ∨ recC8.ICMS_CODE = "00" ∨ recC8.ICMS_CODE = "20")
    ∧ recC8.CFOP = "0000" :=
  ⟨(record_nonnull_defaults "w" none 1 none none detC8 recC8 rfl).1,
   (record_nonnull_defaults "w" none 1 none none detC8 recC8 rfl).2 prodC8 rfl rfl⟩

/-- C3 (documents the code bug): the claim says the coerced invoice total
is shared by every line-item record of the invoice, but the source
reassigns the `vNF` local through `safe_float` inside the item loop
(line 201), and Python's `float(0.0)` path treats the already-coerced
`0.0` as falsy.  For the envelope `fatZ`, whose totals text is `0`, the
first record stores `0.0` while the second stores null. -/
theorem invoice_total_zero_not_shared :
    extractFatura rootZ "z.xml" fatZ = Except.ok [rz1, rz2]
    ∧ rz1.vNF = some 0 ∧ rz2.vNF = none := by
  refine ⟨rfl, ?_, ?_⟩
  · show safe_float (some "0") = some 0
    exact safe_float_zero
  · show pySafeFloat ((safe_float (some "0")).map PyVal.f) = none
    rw [safe_float_zero]
    rfl

/-- Counterexample for C6: an envelope whose invoice-core element
`NFComVivo` is absent does not skip silently; line 129 dereferences the
`None` returned by `fatura.find` and the `AttributeError` escapes, here as
`Except.error`, aborting the file's processing. -/
theorem envelope_core_missing_raises :
    extractFatura rootNoCore "b.xml" faturaNoCore = Except.error ()
    ∧ processFile [] [] "b.xml" rootNoCore = Except.error [] :=
  ⟨rfl, rfl⟩

/-- C6 (amended): for every envelope whose invoice-core element is
present but whose identification block is absent, or whose invoice number
element is missing or fails integer parsing, or whose issue-timestamp
element is missing, the extractor emits zero records for that envelope,
raises no error, and the envelope loop continues identically with the
remaining envelopes.  (An envelope missing the invoice-core element
instead aborts the run with an error, per the counterexample.) -/
theorem envelope_skip (root : Xml) (fn : String) (fatura core : Xml)
    (hcore : findChild fatura (pT "NFComVivo") = some core)
    (hskip : findDescendant core (nsT "ide") = none
      ∨ ∃ ide, findDescendant core (nsT "ide") = some ide
        ∧ (findChild ide (nsT "nNF") = none ∨ findChild ide (nsT "dhEmi") = none
          ∨ ∃ ne, findChild ide (nsT "nNF") = some ne ∧ parsePyInt ne.text = none)) :
    extractFatura root fn fatura = Except.ok []
    ∧ ∀ fs1 fs2, extractFaturaList root fn (fs1 ++ fatura :: fs2)
      = extractFaturaList root fn (fs1 ++ fs2) := by
  have hok : extractFatura root fn fatura = Except.ok [] := by
    rcases hskip with hide | ⟨ide, hide, hrest⟩
    · simp [extractFatura, hcore, hide]
    · rcases hrest with hn | hd | ⟨ne, hne, hparse⟩
      · simp [extractFatura, hcore, hide, hn]
      · cases hx : findChild ide (nsT "nNF") with
        | none => simp [extractFatura, hcore, hide, hx, hd]
        | some ne => simp [extractFatura, hcore, hide, hx, hd]
      · cases hx : findChild ide (nsT "dhEmi") with
        | none => simp [extractFatura, hcore, hide, hne, hx]
        | some de => simp [extractFatura, hcore, hide, hne, hx, hparse]
  refine ⟨hok, ?_⟩
  intro fs1 fs2
  induction fs1 with
  | nil =>
    cases hr : extractFaturaList root fn fs2 <;>
      simp [extractFaturaList, hok, hr]
  | cons g gs ih =>
    simp only [List.cons_append, extractFaturaList]
    have ih2 : extractFaturaList root fn (gs.append (fatura :: fs2))
        = extractFaturaList root fn (gs.append fs2) := ih
    rw [ih2]

/-- Witness for C6: a concrete envelope whose invoice-core is present but
empty (so the identification block is absent) emits no records and leaves
a surrounding envelope list unchanged. -/
theorem envelope_skip_witness :
    extractFatura root0 "a.xml" fatNoIde = Except.ok []
    ∧ extractFaturaList root0 "a.xml" ([] ++ fatNoIde :: [fat0])
      = extractFaturaList root0 "a.xml" ([] ++ [fat0]) :=
  ⟨(envelope_skip root0 "a.xml" fatNoIde (Xml.elem (pT "NFComVivo") [] none [])
      rfl (Or.inl rfl)).1,
   (envelope_skip root0 "a.xml" fatNoIde (Xml.elem (pT "NFComVivo") [] none [])
      rfl (Or.inl rfl)).2 [] [fat0]⟩

/-- Counterexample for C7: in `rootC7` the branch-code path
`.//sirius/codigo_filial` matches twice, with texts `A` then `B`; the
extracted record stores `A`, the text of the first match, while the last
match carries `B`. -/
theorem branch_code_uses_first_match_cex :
    extractTreeRecords rootC7 "c.xml" = Except.ok [recC7]
    ∧ recC7.codigo_filial = some "A"
    ∧ codigoFilialLast rootC7 = some "B"
    ∧ (some "A" : Option String) ≠ some "B" :=
  ⟨rfl, rfl, rfl, by decide⟩

/-- C7 (amended): the branch code stored on every record of a file is the
text of the first match of the fixed non-namespaced path
`.//sirius/codigo_filial` over the whole document (not the last match),
and since it is computed from the document root it is shared across all
envelopes of the file. -/
theorem branch_code_first_match (root : Xml) (fn : String) (fatura : Xml)
    (recs : List Record) (r : Record)
    (h1 : extractFatura root fn fatura = Except.ok recs) (h2 : r ∈ recs) :
    r.codigo_filial = codigoFilial root := by
  simp only [extractFatura] at h1
  split at h1
  · exact absurd h1 (by simp)
  · split at h1
    · obtain rfl : ([] : List Record) = recs := by simpa using h1
      exact absurd h2 (by simp)
    · split at h1
      · split at h1
        · obtain rfl : ([] : List Record) = recs := by simpa using h1
          exact absurd h2 (by simp)
        · obtain rfl := (Except.ok.inj h1)
          exact detFold_codigo _ _ _ _ _ _ r (by simp) h2
      · obtain rfl : ([] : List Record) = recs := by simpa using h1
        exact absurd h2 (by simp)

/-- Witness for C7 at the concrete document `rootC7`. -/
theorem branch_code_first_match_witness : recC7.codigo_filial = codigoFilial rootC7 :=
  branch_code_first_match rootC7 "c.xml" fatC7 [recC7] recC7 rfl
    (List.mem_singleton.mpr rfl)

/-- C2: for every input whose extraction yields a list of valid line-item
records (any length, e.g. 2500 against the fixed batch capacity 1000),
the batch loader appends exactly those records to the table — flushing
each full batch and the final remainder neither drops nor duplicates
records — and the run's count contribution (the growth of
`dados_completos`, whose final length the run returns) equals the number
of rows durably written. -/
theorem batch_load_exact (root : Xml) (fn : String) (recs db dados : List Record)
    (h : extractTreeRecords root fn = Except.ok recs) :
    processFile db dados fn root = Except.ok (db ++ recs, dados ++ recs)
    ∧ (dados ++ recs).length = dados.length + recs.length := by
  have h2 : extractFaturaList root fn (childrenNamed root (pT "Fatura"))
      = Except.ok recs := h
  have hfold := faturaFold_ok root fn (childrenNamed root (pT "Fatura"))
    ⟨db, dados, []⟩ recs h2
  obtain ⟨g1, g2⟩ := loadRecords_spec recs ⟨db, dados, []⟩
  simp only [List.append_nil] at g1 g2
  constructor
  · have e1 : processFile db dados fn root
        = Except.ok (finalFlush (loadRecords ⟨db, dados, []⟩ recs)) := by
      simp only [processFile, hfold]
    rw [e1, finalFlush_spec]
    rw [g1, g2]
  · simp

/-- Witness for C2 at the concrete document `root0`, loading into an empty
table. -/
theorem batch_load_exact_witness :
    processFile [] [] "a.xml" root0 = Except.ok ([rec0], [rec0]) :=
  (batch_load_exact root0 "a.xml" [rec0] [] [] rfl).1

/-- C1: a load run against a store instance already holding at least one
row performs no parsing or insertion (the store is returned unchanged)
and returns the pre-existing row count; consequently, loading the same
file set under its fingerprint a second time returns the first run's
count and leaves the store byte-for-byte unchanged — no duplicate rows. -/
theorem gate_idempotent (files : List (String × Xml)) (store : Store) (t : List Record)
    (idxs : List String) (store1 : Store) (n : Nat) :
    (store.table = some t → 0 < t.length →
      processXmlFiles files store none = (store, Except.ok t.length))
    ∧ (processXmlFiles files ⟨none, idxs⟩ none = (store1, Except.ok n) →
      processXmlFiles files store1 none = (store1, Except.ok n)) := by
  constructor
  · intro h1 h2
    simp [processXmlFiles, h1, h2]
  · intro h
    simp only [processXmlFiles, runLoad] at h
    cases hpl : processFilesLoop [] [] files with
    | error d =>
      rw [hpl] at h
      exact absurd h (by simp)
    | ok p =>
      obtain ⟨db2, dados2⟩ := p
      rw [hpl] at h
      obtain ⟨L, e1, e2⟩ := processFilesLoop_grow files [] [] db2 dados2 hpl
      simp only [List.nil_append] at e1 e2
      have hst : store1 = ⟨some db2, attemptIndexes idxs none⟩ :=
        (congrArg Prod.fst h).symm
      have hn : n = dados2.length := by
        have h3 : Except.ok (ε := Unit) dados2.length = Except.ok n := congrArg Prod.snd h
        exact (Except.ok.inj h3).symm
      have hlen_eq : db2.length = dados2.length := by rw [e1, e2]
      rw [hst, hn]
      by_cases hp : 0 < db2.length
      · have hgate : processXmlFiles files ⟨some db2, attemptIndexes idxs none⟩ none
            = (⟨some db2, attemptIndexes idxs none⟩, Except.ok db2.length) := by
          simp [processXmlFiles, hp]
        rw [hgate, hlen_eq]
      · have hdb : db2 = [] := List.length_eq_zero.mp (Nat.eq_zero_of_not_pos hp)
        have hdd : dados2 = [] := by rw [e2, ← e1, hdb]
        rw [hdb, hdd] at hpl
        rw [hdb, hdd]
        simp [processXmlFiles, runLoad, hpl, attemptIndexes, createIndexes_idem]

/-- Witness for C1: the gate on a one-row store, and the rerun after a
concrete first load of `root0` into a fresh store. -/
theorem gate_idempotent_witness :
    processXmlFiles [("a.xml", root0)] ⟨some [rec0], []⟩ none
      = (⟨some [rec0], []⟩, Except.ok 1)
    ∧ processXmlFiles [("a.xml", root0)]
        ⟨some [rec0], ["idx_nNF", "idx_dhEmi", "idx_CFOP", "idx_filename"]⟩ none
      = (⟨some [rec0], ["idx_nNF", "idx_dhEmi", "idx_CFOP", "idx_filename"]⟩,
        Except.ok 1) :=
  ⟨(gate_idempotent [("a.xml", root0)] ⟨some [rec0], []⟩ [rec0] []
      ⟨some [rec0], []⟩ 1).1 rfl (by decide),
   (gate_idempotent [("a.xml", root0)] ⟨none, []⟩ [rec0] []
      ⟨some [rec0], ["idx_nNF", "idx_dhEmi", "idx_CFOP", "idx_filename"]⟩ 1).2 rfl⟩

/-- C9: index creation is idempotent (skip-if-exists: rebuilding over
already-created indexes changes nothing), it runs only after all batches
are committed (the loaded table never depends on the index step), and any
index-creation failure is swallowed: for every failure point the run
still returns the same record count and the same table contents as the
failure-free run. -/
theorem index_epilogue (idxs : List String) (files : List (String × Xml))
    (store : Store) (k : Nat) :
    createIndexes (createIndexes idxs) = createIndexes idxs
    ∧ (processXmlFiles files store (some k)).1.table
      = (processXmlFiles files store none).1.table
    ∧ (processXmlFiles files store (some k)).2 = (processXmlFiles files store none).2 := by
  refine ⟨createIndexes_idem idxs, ?_, ?_⟩ <;>
  · cases ht : store.table with
    | none =>
      simp only [processXmlFiles, ht, runLoad]
      cases hpl : processFilesLoop [] [] files with
      | error d => simp [hpl]
      | ok p =>
        obtain ⟨db2, dados2⟩ := p
        simp [hpl]
    | some t =>
      by_cases h0 : 0 < t.length
      · simp [processXmlFiles, ht, h0]
      · simp only [processXmlFiles, ht, if_neg h0, runLoad]
        cases hpl : processFilesLoop t [] files with
        | error d => simp [hpl]
        | ok p =>
          obtain ⟨db2, dados2⟩ := p
          simp [hpl]
